import Mathlib

/-!
Verification of the autopxe repository core: a shallow embedding in Lean 4 of
the session coordinator (`autopxe/__init__.py`), the dnsmasq process supervisor
and option formatter (`autopxe/dnsmasq.py`), the iptables rule-set manager
(`autopxe/iptables.py`), and the interface configurator
(`autopxe/networking.py`), together with theorems settling the specified
properties of those components.
-/

/-! ## Option formatter (autopxe/dnsmasq.py, DnsMasq.format_option) -/

/-- The typed values a `DnsMasq` dataclass field may hold, as dispatched on by
`DnsMasq.format_option` (`functools.singledispatchmethod`): an arbitrary
scalar (formatted through `str`, the default handler), a boolean, a tuple of
stringable values, or a list of any of these. -/
inductive OptValue where
  | scalar (v : String)
  | boolean (b : Bool)
  | tup (vs : List String)
  | list (vs : List OptValue)

mutual
/-- `DnsMasq.format_option`: the default handler returns `[f"{switch}={value}"]`;
the `bool` handler returns `[switch]` when true and `[]` otherwise; the `tuple`
handler joins the elements with commas into one `switch=...` token; the `list`
handler formats each element independently and concatenates the results. -/
def format_option : OptValue → String → List String
  | .scalar v, switch => [switch ++ "=" ++ v]
  | .boolean b, switch => if b then [switch] else []
  | .tup vs, switch => [switch ++ "=" ++ String.intercalate "," vs]
  | .list vs, switch => format_option_elems vs switch

/-- The loop body of `DnsMasq._format_list`: `options.extend(self.format_option(i, switch))`
for each element `i` of the list, in order. -/
def format_option_elems : List OptValue → String → List String
  | [], _ => []
  | v :: vs, switch => format_option v switch ++ format_option_elems vs switch
end

/-- `name.replace("_", "-")` as used in `DnsMasq.formatted_options`: the
pattern is the single character underscore, so Python's `str.replace`
substitutes a dash for each underscore occurrence, i.e. a character map. -/
def dashify (s : String) : String :=
  String.mk (s.data.map (fun c => if c = '_' then '-' else c))

/-- `DnsMasq.formatted_options`: iterates over the dataclass fields in
declaration order (`asdict(self).items()`) and yields
`format_option(value, f"--{name.replace('_', '-')}")` for each. -/
def formatted_options (opts : List (String × OptValue)) : List String :=
  opts.flatMap (fun p => format_option p.2 ("--" ++ dashify p.1))

/-! ## Address derivation (autopxe/__init__.py, Pxe.server_address / Pxe.dhcp_range)

IPv4 addresses are modelled as natural numbers below `2^32`; a network is its
network address together with a prefix length. -/

/-- `IPv4Network.hosts()` of the Python `ipaddress` module, materialised as a
list: for prefix lengths up to 30 it yields every address of the network except
the network address itself and the broadcast address; for /31 and /32 it yields
all addresses of the network. -/
def ipv4_hosts (net plen : Nat) : List Nat :=
  if 31 ≤ plen then (List.range (2 ^ (32 - plen))).map (fun i => net + i)
  else (List.range (2 ^ (32 - plen) - 2)).map (fun i => net + 1 + i)

/-- `Pxe.server_address`: `next(self.pxe_net.hosts())`, the first element of
the hosts iterator (`none` models the `StopIteration` that `next` would
raise on an empty iterator). -/
def server_address (net plen : Nat) : Option Nat :=
  (ipv4_hosts net plen).head?

/-- `Pxe.dhcp_range`: `(first_addr := self.server_address + 1), first_addr +
self.dhcp_range_size` — the lower and upper (inclusive) bounds of the DHCP
client range. -/
def dhcp_range (net plen size : Nat) : Option (Nat × Nat) :=
  (server_address net plen).map (fun s => (s + 1, s + 1 + size))

/-- The addresses of the inclusive interval `[lo, hi]`, used to count how many
addresses a derived client range contains. -/
def rangeAddrs (lo hi : Nat) : List Nat :=
  (List.range (hi + 1 - lo)).map (fun i => lo + i)

/-! ## Rule set manager (autopxe/iptables.py, call_iptables / masquerade)

Each `check_call` of an iptables command is an observable event; `fails`
says which invocations exit with a non-zero status (raising
`CalledProcessError` in the Python code).  Execution is traced: a run returns
the list of iptables invocations performed, in order, together with either
normal completion or the exception that is propagating. -/

/-- An iptables invocation: the add (`--append`) or the delete (`--delete`)
command of rule number `k` of a rule set. -/
inductive IptEv where
  | add (k : Nat)
  | del (k : Nat)
deriving DecidableEq

/-- Outcome of a traced run: the invocations performed and either `ok` or the
propagating exception, identified by the invocation that raised it. -/
abbrev IptRes := List IptEv × Except IptEv Unit

/-- `call_iptables` (a `@contextmanager`): the `try` block runs
`check_call(add)` and then the body (the code after `yield`); the `finally`
block runs `check_call(delete)` in every case — after a failed add, after a
successful body, and while an exception from the body is propagating.  An
exception raised by the delete in the `finally` replaces whatever exception
was propagating. -/
def call_iptables (fails : IptEv → Bool) (k : Nat)
    (body : List IptEv → IptRes) (t : List IptEv) : IptRes :=
  let t1 := t ++ [IptEv.add k]
  if fails (.add k) then
    -- check_call(add) raised; the finally clause still runs the delete
    let t2 := t1 ++ [IptEv.del k]
    if fails (.del k) then (t2, .error (.del k)) else (t2, .error (.add k))
  else
    let r := body t1
    -- the finally clause runs the delete whether the body completed or raised
    let t2 := r.1 ++ [IptEv.del k]
    if fails (.del k) then (t2, .error (.del k)) else (t2, r.2)

/-- An ordered rule set applied as nested `call_iptables` scopes, exactly as
the parenthesised `with` statement in `masquerade` nests its three context
managers. -/
def apply_rules (fails : IptEv → Bool) :
    List Nat → (List IptEv → IptRes) → List IptEv → IptRes
  | [], body, t => body t
  | k :: ks, body, t => call_iptables fails k (apply_rules fails ks body) t

/-- A body that performs no iptables invocation and completes normally
(the `yield` of `masquerade`). -/
def noop_body (t : List IptEv) : IptRes := (t, .ok ())

/-- The three rules `masquerade` installs, in order: 1 = FORWARD out-interface
ACCEPT, 2 = FORWARD in-interface ACCEPT, 3 = nat POSTROUTING MASQUERADE. -/
def masquerade_rules : List Nat := [1, 2, 3]

/-- The characterisation of which error survives a teardown pass of
`apply_rules` when only deletes can fail: the deletes run in reverse rule
order, and an exception raised by a later delete replaces the propagating one,
so the error that reaches the caller is the delete failure of the
earliest-applied failing rule; `ok` if no delete fails. -/
def surviving_del_error (fails : IptEv → Bool) : List Nat → Except IptEv Unit
  | [] => .ok ()
  | k :: ks => if fails (.del k) then .error (.del k) else surviving_del_error fails ks

/-! ## Interface configurator (autopxe/networking.py, setup_iface)

The kernel state visible through pyroute2's `IPRoute` is modelled as the list
of `(interface index, address, prefix length)` assignments present on the host
plus the set of interfaces that are administratively up. -/

/-- A netlink error code, as carried by `NetlinkError.code`: `EEXIST` for an
address that is already present, `ENOENT`-like failure for deleting an absent
address. -/
inductive NlErr where
  | eexist
  | enoent
deriving DecidableEq

/-- Host network state: address assignments and interfaces that are up. -/
structure NetState where
  addrs : List (Nat × String × Nat)
  up : List Nat
deriving DecidableEq

/-- `ipr.addr("add", ...)`: fails with `EEXIST` when the identical
address/prefix is already assigned to the interface, otherwise records the
assignment. -/
def ipr_addr_add (st : NetState) (idx : Nat) (a : String) (plen : Nat) :
    Except NlErr NetState :=
  if (idx, a, plen) ∈ st.addrs then .error .eexist
  else .ok { st with addrs := st.addrs ++ [(idx, a, plen)] }

/-- `ipr.addr("del", ...)`: removes the assignment, failing when it is not
present. -/
def ipr_addr_del (st : NetState) (idx : Nat) (a : String) (plen : Nat) :
    Except NlErr NetState :=
  if (idx, a, plen) ∈ st.addrs then
    .ok { st with addrs := st.addrs.erase (idx, a, plen) }
  else .error .enoent

/-- `ipr.link("set", index=..., state="up")`: brings the interface up
(idempotently). -/
def ipr_link_up (st : NetState) (idx : Nat) : NetState :=
  { st with up := if idx ∈ st.up then st.up else st.up ++ [idx] }

/-- Entry half of `setup_iface`: try `addr add`; an `EEXIST` error is caught
and recorded as `address_exists = true`, any other netlink error re-raised;
then the interface is brought up.  Returns the new state and the
`address_exists` flag the scope keeps for its exit. -/
def setup_iface_enter (a : String) (plen idx : Nat) (st : NetState) :
    Except NlErr (NetState × Bool) :=
  match ipr_addr_add st idx a plen with
  | .ok st1 => .ok (ipr_link_up st1 idx, false)
  | .error .eexist => .ok (ipr_link_up st idx, true)
  | .error e => .error e

/-- Exit half of `setup_iface` (the code after `yield`, reached on normal
scope exit): the address is deleted only when this scope added it
(`if not address_exists`); the interface is never brought back down. -/
def setup_iface_exit (a : String) (plen idx : Nat) (address_exists : Bool)
    (st : NetState) : Except NlErr NetState :=
  if address_exists then .ok st else ipr_addr_del st idx a plen

/-! ## Process supervisor state (autopxe/dnsmasq.py, DnsMasq)

The runtime handles set up by `__post_init__` (`process`, `logs`, `workdir`)
are modelled explicitly; `None` is `Option.none`.  Dereferencing `None`
raises `AttributeError`, modelled as an error result. -/

/-- The observable status of the launched child process: `Popen.poll()`
returns `None` while it runs and its exit code once it has exited. -/
inductive ProcStatus where
  | running
  | exited (code : Int)
deriving DecidableEq

/-- `Popen.poll()`. -/
def proc_poll : ProcStatus → Option Int
  | .running => none
  | .exited c => some c

/-- The runtime handles of a `DnsMasq` instance: the `Popen` handle, the open
log-file handle and the temporary working directory, each `None` until
`__enter__` creates them. -/
structure DState where
  process : Option ProcStatus
  logs : Option Nat
  workdir : Option Nat
deriving DecidableEq

/-- `DnsMasq.__post_init__`: all three runtime handles start as `None`. -/
def dnsmasq_post_init : DState :=
  { process := none, logs := none, workdir := none }

/-- Python exceptions the supervisor operations can raise. -/
inductive PyErr where
  | attributeError
deriving DecidableEq

/-- `DnsMasq.running`: `self.process is not None and self.process.poll() is
None`.  The `and` short-circuits, so a `None` process reports not-running
without raising. -/
def dnsmasq_running (st : DState) : Bool :=
  match st.process with
  | none => false
  | some p => (proc_poll p).isNone

/-- `DnsMasq.stop`: dereferences `self.process` (raising `AttributeError`
when it is `None`); if the child is still running it is terminated and waited
on, after which `poll` reports its exit status (SIGTERM termination is
reported as `-15` by `Popen`); if the child has already exited the call is a
no-op. -/
def dnsmasq_stop (st : DState) : Except PyErr DState :=
  match st.process with
  | none => .error .attributeError
  | some .running => .ok { st with process := some (.exited (-15)) }
  | some (.exited _) => .ok st

/-- `DnsMasq.read_logs`: dereferences `self.logs` (raising `AttributeError`
when it is `None`); reading the log file observes but does not change the
supervisor's process state. -/
def dnsmasq_read_logs (st : DState) : Except PyErr DState :=
  match st.logs with
  | none => .error .attributeError
  | some _ => .ok st

/-- `DnsMasq.__exit__`: `self.stop()`, then `self.logs.close()`, then
`self.workdir.cleanup()` — each dereferencing its handle. -/
def dnsmasq_scope_exit (st : DState) : Except PyErr DState :=
  match dnsmasq_stop st with
  | .error e => .error e
  | .ok st1 =>
    match st1.logs, st1.workdir with
    | some _, some _ => .ok { st1 with logs := none, workdir := none }
    | _, _ => .error .attributeError

/-- The operations that can act on a supervisor instance after launch,
including the environment event of the child exiting on its own. -/
inductive DOp where
  | stop
  | readLogs
  | pollOp
  | childExits (code : Int)
deriving DecidableEq

/-- One operation step on the supervisor state. -/
def dnsmasq_step (st : DState) : DOp → Except PyErr DState
  | .stop => dnsmasq_stop st
  | .readLogs => dnsmasq_read_logs st
  | .pollOp => .ok st
  | .childExits c =>
    match st.process with
    | some .running => .ok { st with process := some (.exited c) }
    | _ => .ok st

/-- A sequence of operations, stopping at the first raised exception. -/
def dnsmasq_exec : List DOp → DState → Except PyErr DState
  | [], st => .ok st
  | op :: ops, st =>
    match dnsmasq_step st op with
    | .error e => .error e
    | .ok st1 => dnsmasq_exec ops st1

/-! ## Log tailing (autopxe/dnsmasq.py, DnsMasq.read_logs)

The log file is a list of characters; the open text handle keeps a cursor
position.  `TextIO.readlines()` on a regular file returns, without blocking,
everything between the cursor and end-of-file split after each newline — a
trailing chunk with no final newline is returned too — and leaves the cursor
at end-of-file. -/

/-- Splits a character stream into lines the way `readlines` does: each
returned chunk ends with the newline that closed it, except a final
unterminated chunk, which is returned as-is.  `acc` holds the characters of
the line being accumulated, in reverse. -/
def split_lines_keep : List Char → List Char → List (List Char)
  | [], acc => if acc = [] then [] else [acc.reverse]
  | c :: rest, acc =>
    if c = '\n' then (acc.reverse ++ ['\n']) :: split_lines_keep rest []
    else split_lines_keep rest (c :: acc)

/-- `self.logs.readlines()` from cursor `pos` in file `content`: the chunks
read and the new cursor position (end-of-file). -/
def readlines_from (content : List Char) (pos : Nat) :
    List (List Char) × Nat :=
  (split_lines_keep (content.drop pos) [], content.length)

/-- Python's `str.strip()` whitespace predicate (the characters stripped by
default). -/
def is_py_space (c : Char) : Bool :=
  c = ' ' || c = '\t' || c = '\n' || c = '\r' || c = '\x0b' || c = '\x0c'

/-- `str.strip()`: drops leading and trailing whitespace. -/
def py_strip (l : List Char) : List Char :=
  ((l.dropWhile is_py_space).reverse.dropWhile is_py_space).reverse

/-- `DnsMasq.read_logs` on a file `content` with the handle's cursor at
`pos`: `filter(None, map(str.strip, self.logs.readlines()))` — every chunk
readlines returns is stripped and forwarded to the logger unless empty; the
lines delivered and the new cursor position are returned. -/
def read_logs_from (content : List Char) (pos : Nat) :
    List (List Char) × Nat :=
  let r := readlines_from content pos
  ((r.1.map py_strip).filter (fun l => l ≠ []), r.2)

/-! ## Session coordinator (autopxe/__init__.py, Pxe.run)

`Pxe.run` stacks five scopes in one `with` statement —
`distribution.unpack()`, `setup_iface(...)`, `masquerade()`, `Preseeder(...)`
— and, inside the body, `DnsMasq(...)` around the monitoring loop.  The model
records the scope-entry and scope-exit events each run performs, in order,
under each of the four ways the session can end.  All system calls succeed
here (failure of individual rule commands is covered by the rule-set model
above); the address is taken to be not pre-existing, so `setup_iface` does
add it at entry. -/

/-- Observable events of one session run.  NAT events carry the interface
name the rule is installed on. -/
inductive Ev where
  | unpackEnter
  | unpackExit
  | addrAdd
  | linkUp
  | addrDel
  | natAdd (k : Nat) (iface : String)
  | natDel (k : Nat) (iface : String)
  | preseedEnter
  | preseedExit
  | dnsmasqLaunch (extraBoot : Bool)
  | dnsmasqTerminate
  | logsClose
  | workdirCleanup
  | drainLogs
deriving DecidableEq

/-- How the monitoring loop ends: the child exits on its own (`normal`), the
cooperative `must_stop` flag is seen (`stopFlag`), a `KeyboardInterrupt` is
caught (`interrupt`), or an exception other than `KeyboardInterrupt` is
raised inside the session body and propagates (`bodyError`). -/
inductive ExitMode where
  | normal
  | stopFlag
  | interrupt
  | bodyError
deriving DecidableEq

/-- A traced run: the events performed and whether an exception is
propagating when it finishes. -/
abbrev RunRes := List Ev × Bool

/-- A class-based context manager (`Preseeder`, `DnsMasq`,
`TemporaryDirectory`): once `__enter__` has succeeded, `__exit__` runs on
every exit path, including while an exception from the body propagates. -/
def withClassCM (enter exit : List Ev) (body : RunRes) : RunRes :=
  (enter ++ body.1 ++ exit, body.2)

/-- A generator-based `@contextmanager` whose `yield` is NOT wrapped in
`try/finally` (`setup_iface`): the code after the `yield` runs only when the
body completes normally; an exception thrown into the generator at the
`yield` propagates immediately and the cleanup is skipped. -/
def withGenNoFinallyCM (enter exit : List Ev) (body : RunRes) : RunRes :=
  if body.2 then (enter ++ body.1, true) else (enter ++ body.1 ++ exit, false)

/-- The `masquerade` scope: its own `yield` contributes nothing, but it wraps
the body in a `with` of three `call_iptables` managers, each of whose
`finally` runs the delete on every exit path.  The rules are installed on the
interface returned by `get_default_iface()`. -/
def masqueradeCM (iface : String) (body : RunRes) : RunRes :=
  withGenNoFinallyCM [] []
    (withClassCM [.natAdd 1 iface] [.natDel 1 iface]
      (withClassCM [.natAdd 2 iface] [.natDel 2 iface]
        (withClassCM [.natAdd 3 iface] [.natDel 3 iface] body)))

/-- The monitoring loop and the final `read_logs` for each exit mode.  In
`stopFlag` and `interrupt` modes the loop itself calls `dnsmasq.stop()`
(terminating the child); in `bodyError` mode the exception propagates before
the final drain. -/
def loop_body : ExitMode → RunRes
  | .normal => ([.drainLogs, .drainLogs], false)
  | .stopFlag => ([.drainLogs, .dnsmasqTerminate, .drainLogs], false)
  | .interrupt => ([.drainLogs, .dnsmasqTerminate, .drainLogs], false)
  | .bodyError => ([.drainLogs], true)

/-- The `DnsMasq` scope around the loop: `__enter__` launches the child
(with the extra conditional boot directive iff a preseed file is configured);
`__exit__` calls `stop()` — which terminates the child only when it is still
running, i.e. only on the `bodyError` path — then closes the log handle and
cleans the working directory. -/
def dnsmasqCM (extraBoot : Bool) (mode : ExitMode) : RunRes :=
  withClassCM [.dnsmasqLaunch extraBoot]
    ((if mode = .bodyError then [.dnsmasqTerminate] else [])
      ++ [.logsClose, .workdirCleanup])
    (loop_body mode)

/-- The session configuration fields that matter to the coordinator's control
flow, plus the interface `get_default_iface()` resolves on the host. -/
structure PxeConfig where
  preseed_file : Option String
  masquerade_iface : String
  default_route_iface : String
deriving DecidableEq

/-- `Pxe.run`: `unpack` (a generator whose cleanup sits inside its own
`with TemporaryDirectory`, so it runs on every exit path), then
`setup_iface` (no `try/finally` around its `yield`), then `masquerade()` —
called unconditionally, on the default-route interface — then `Preseeder`
— entered unconditionally as well — and inside, the `DnsMasq` scope and
monitoring loop. -/
def pxe_run (cfg : PxeConfig) (mode : ExitMode) : RunRes :=
  withClassCM [.unpackEnter] [.unpackExit]
    (withGenNoFinallyCM [.addrAdd, .linkUp] [.addrDel]
      (masqueradeCM cfg.default_route_iface
        (withClassCM [.preseedEnter] [.preseedExit]
          (dnsmasqCM cfg.preseed_file.isSome mode))))

/-! ## Theorems -/

/-- The `_format_list` loop concatenates the independently formatted elements
in input order. -/
theorem format_option_elems_eq_flatten (vs : List OptValue) (sw : String) :
    format_option_elems vs sw = (vs.map (fun v => format_option v sw)).flatten := by
  induction vs with
  | nil => rfl
  | cons v vs ih => simp [format_option_elems, ih]

/-- `dashify` leaves no underscore in its output. -/
theorem dashify_no_underscore (s : String) : '_' ∉ (dashify s).data := by
  simp only [dashify, List.mem_map]
  rintro ⟨c, _, hc⟩
  by_cases h : c = '_' <;> simp [h] at hc

/-- C5: the option formatter emits, for a boolean true, exactly one bare flag
token; for a boolean false, no token; for a scalar, the single token
`switch=value`; for a tuple, one token with the elements comma-joined; for a
list, one independently formatted group per element, concatenated in input
order; and the switch built for a field name carries no underscore — each is
rendered as a dash. -/
theorem format_option_spec (sw v : String) (es : List String) (vs : List OptValue)
    (n : String) (val : OptValue) (opts : List (String × OptValue)) :
    format_option (.boolean true) sw = [sw]
  ∧ format_option (.boolean false) sw = []
  ∧ format_option (.scalar v) sw = [sw ++ "=" ++ v]
  ∧ format_option (.tup es) sw = [sw ++ "=" ++ String.intercalate "," es]
  ∧ format_option (.list vs) sw = (vs.map (fun e => format_option e sw)).flatten
  ∧ formatted_options ((n, val) :: opts)
      = format_option val ("--" ++ dashify n) ++ formatted_options opts
  ∧ '_' ∉ ("--" ++ dashify n).data := by
  refine ⟨rfl, rfl, rfl, rfl, format_option_elems_eq_flatten vs sw, rfl, ?_⟩
  have h := dashify_no_underscore n
  simp only [String.data_append]
  intro hmem
  rcases List.mem_append.mp hmem with h1 | h2
  · exact absurd h1 (by decide)
  · exact h h2

set_option maxRecDepth 8000 in
/-- C4 counterexample: for the network `10.94.0.0/24` (`10.94.0.0` is
`173932544`) and `dhcp_range_size = 20`, the derived client range is
`(10.94.0.2, 10.94.0.22)` inclusive, which contains 21 addresses, not the 20
the claim asserts. -/
theorem dhcp_range_count_counterexample :
    server_address 173932544 24 = some 173932545
  ∧ dhcp_range 173932544 24 20 = some (173932546, 173932566)
  ∧ 20 + 2 ≤ (ipv4_hosts 173932544 24).length
  ∧ (rangeAddrs 173932546 173932566).length = 21
  ∧ (rangeAddrs 173932546 173932566).length ≠ 20 := by
  refine ⟨rfl, rfl, by decide, by decide, by decide⟩

/-- C4 (amended): for every network range with at least `dhcp_range_size + 2`
usable addresses (prefix length at most 30, so that hosts() excludes the
network and broadcast addresses), the derived server address is the first
usable host address (`network + 1`), the derived client range starts at
`server_address + 1`, and — its bounds being inclusive — it contains exactly
`dhcp_range_size + 1` addresses. -/
theorem dhcp_range_spec (net plen size : Nat) (hp : plen ≤ 30)
    (hcap : size + 2 ≤ (ipv4_hosts net plen).length) :
    server_address net plen = some (net + 1)
  ∧ dhcp_range net plen size = some (net + 2, net + 2 + size)
  ∧ ∀ lo hi, dhcp_range net plen size = some (lo, hi) →
      (rangeAddrs lo hi).length = size + 1 := by
  have hlt : ¬ 31 ≤ plen := by omega
  have hlen : 0 < 2 ^ (32 - plen) - 2 := by
    simp only [ipv4_hosts, hlt, if_false, List.length_map, List.length_range] at hcap
    omega
  obtain ⟨m, hm⟩ : ∃ m, 2 ^ (32 - plen) - 2 = m + 1 :=
    ⟨2 ^ (32 - plen) - 2 - 1, by omega⟩
  have hhost : server_address net plen = some (net + 1) := by
    simp [server_address, ipv4_hosts, hlt, hm, List.range_succ_eq_map]
  have hrange : dhcp_range net plen size = some (net + 2, net + 2 + size) := by
    simp only [dhcp_range, hhost, Option.map_some]
    refine congrArg some (Prod.ext ?_ ?_) <;> simp
  refine ⟨hhost, hrange, ?_⟩
  intro lo hi h
  rw [hrange] at h
  have hlo : lo = net + 2 := by
    have := congrArg (fun p => p.map Prod.fst) h
    simpa using this.symm
  have hhi : hi = net + 2 + size := by
    have := congrArg (fun p => p.map Prod.snd) h
    simpa using this.symm
  subst hlo
  subst hhi
  simp only [rangeAddrs, List.length_map, List.length_range]
  omega

set_option maxRecDepth 8000 in
/-- C4 witness: the amended property at network `10.94.0.0/24` and range size
20. -/
theorem dhcp_range_spec_witness :
    server_address 173932544 24 = some (173932544 + 1)
  ∧ dhcp_range 173932544 24 20 = some (173932544 + 2, 173932544 + 2 + 20)
  ∧ ∀ lo hi, dhcp_range 173932544 24 20 = some (lo, hi) →
      (rangeAddrs lo hi).length = 20 + 1 :=
  dhcp_range_spec 173932544 24 20 (by decide) (by decide)

/-- C10: a supervisor instance on which the scope has never been entered has
all three runtime handles `None`; calling `stop`, `read_logs` or `__exit__`
on it raises `AttributeError` (dereferencing `None`) rather than behaving as
a benign no-op. -/
theorem dnsmasq_unlaunched_operations_fail :
    dnsmasq_post_init.process = none
  ∧ dnsmasq_post_init.logs = none
  ∧ dnsmasq_post_init.workdir = none
  ∧ dnsmasq_stop dnsmasq_post_init = .error PyErr.attributeError
  ∧ dnsmasq_read_logs dnsmasq_post_init = .error PyErr.attributeError
  ∧ dnsmasq_scope_exit dnsmasq_post_init = .error PyErr.attributeError :=
  ⟨rfl, rfl, rfl, rfl, rfl, rfl⟩

/-- C9 counterexample: with the log file holding the unterminated content
`"abc"` and the cursor at 0, `read_logs` delivers `"abc"` immediately — the
partial trailing content is returned, not held back — and after `"def\n"` is
appended, the next call delivers `"def"` separately, so the completed line
`"abcdef"` is never delivered by either call. -/
theorem read_logs_partial_counterexample :
    read_logs_from "abc".data 0 = (["abc".data], 3)
  ∧ ["abc".data] ≠ ([] : List (List Char))
  ∧ (read_logs_from ("abc".data ++ "def\n".data) 3).1 = ["def".data]
  ∧ "abcdef".data ∉
      (read_logs_from "abc".data 0).1 ++ (read_logs_from ("abc".data ++ "def\n".data) 3).1 := by
  refine ⟨rfl, by decide, rfl, by decide⟩

/-- Concatenating the chunks readlines returns gives back exactly the
consumed characters: nothing, in particular no partial trailing line, is
held back. -/
theorem split_lines_keep_flatten (l : List Char) :
    ∀ acc, (split_lines_keep l acc).flatten = acc.reverse ++ l := by
  induction l with
  | nil =>
    intro acc
    by_cases h : acc = ([] : List Char) <;> simp [split_lines_keep, h]
  | cons c rest ih =>
    intro acc
    by_cases h : c = '\n'
    · subst h
      simp [split_lines_keep, ih]
    · simp [split_lines_keep, h, ih (c :: acc)]

/-- Every chunk readlines returns except possibly the last ends with a
newline. -/
theorem split_lines_keep_terminated (l : List Char) :
    ∀ acc, ∀ x ∈ (split_lines_keep l acc).dropLast, x.getLast? = some '\n' := by
  induction l with
  | nil =>
    intro acc x hx
    by_cases h : acc = ([] : List Char) <;> simp [split_lines_keep, h] at hx
  | cons c rest ih =>
    intro acc x hx
    by_cases h : c = '\n'
    · subst h
      have hrw : split_lines_keep ('\n' :: rest) acc
          = (acc.reverse ++ ['\n']) :: split_lines_keep rest [] := by
        simp [split_lines_keep]
      rw [hrw] at hx
      rcases hd : split_lines_keep rest [] with _ | ⟨y, ys⟩
      · rw [hd] at hx
        simp at hx
      · rw [hd, List.dropLast_cons₂] at hx
        rcases List.mem_cons.mp hx with h1 | h1
        · subst h1
          simp
        · exact ih [] x (by rw [hd]; exact h1)
    · simp only [split_lines_keep, if_neg h] at hx
      exact ih (c :: acc) x hx

/-- C9 (amended): `drain_log` returns, without blocking, everything appended
to the log file since the previous call, split at newlines: the chunks read
concatenate back to exactly the consumed content (so a partial unterminated
trailing chunk is returned immediately rather than held back), every chunk
except possibly the last is newline-terminated, the cursor advances to
end-of-file, the next call sees only content appended after it, and the
delivered lines are the chunks stripped of whitespace with empties dropped. -/
theorem read_logs_nonblocking_spec (content extra : List Char) (pos : Nat) :
    (readlines_from content pos).1.flatten = content.drop pos
  ∧ (readlines_from content pos).2 = content.length
  ∧ (∀ x ∈ (readlines_from content pos).1.dropLast, x.getLast? = some '\n')
  ∧ (readlines_from (content ++ extra) content.length).1 = (readlines_from extra 0).1
  ∧ (read_logs_from content pos).1
      = ((readlines_from content pos).1.map py_strip).filter (fun l => l ≠ []) := by
  refine ⟨?_, rfl, ?_, ?_, rfl⟩
  · simpa using split_lines_keep_flatten (content.drop pos) []
  · intro x hx
    exact split_lines_keep_terminated (content.drop pos) [] x hx
  · simp [readlines_from, List.drop_left]

/-- C2: applying the masquerade rule set when the add of rule 2 fails (and
deleting the never-added rule 2 therefore also fails, as `iptables --delete`
of an absent rule does): rule 3's add is never attempted and rule 1's delete
runs, but — because the `try` block of `call_iptables` encloses the add
itself — the failing rule's own delete IS invoked, and its failure replaces
the add error as the exception the caller sees. -/
theorem masquerade_add_failure_behavior :
    apply_rules (fun e => e == IptEv.add 2 || e == IptEv.del 2) masquerade_rules noop_body []
      = ([IptEv.add 1, IptEv.add 2, IptEv.del 2, IptEv.del 1], .error (IptEv.del 2))
  ∧ IptEv.del 2 ∈
      (apply_rules (fun e => e == IptEv.add 2 || e == IptEv.del 2) masquerade_rules noop_body []).1
  ∧ IptEv.add 3 ∉
      (apply_rules (fun e => e == IptEv.add 2 || e == IptEv.del 2) masquerade_rules noop_body []).1
  ∧ (apply_rules (fun e => e == IptEv.add 2 || e == IptEv.del 2) masquerade_rules noop_body []).2
      ≠ .error (IptEv.add 2) := by
  refine ⟨rfl, by decide, by decide, ?_⟩
  intro h
  have : IptEv.del 2 = IptEv.add 2 := Except.error.inj (by rw [← h]; rfl)
  exact absurd this (by decide)

/-- C3 counterexample: tearing down the fully applied masquerade rule set
when the deletes of rule 3 and rule 1 both fail: every delete still runs, in
reverse order, but the error surfaced to the caller is the one of rule 1's
delete — the LAST failure of the reverse pass — while the first error
encountered was rule 3's; no aggregation takes place. -/
theorem masquerade_teardown_error_counterexample :
    apply_rules (fun e => e == IptEv.del 3 || e == IptEv.del 1) masquerade_rules noop_body []
      = ([IptEv.add 1, IptEv.add 2, IptEv.add 3, IptEv.del 3, IptEv.del 2, IptEv.del 1],
         .error (IptEv.del 1))
  ∧ (Except.error (IptEv.del 1) : Except IptEv Unit) ≠ .error (IptEv.del 3) := by
  refine ⟨rfl, ?_⟩
  intro h
  have : IptEv.del 1 = IptEv.del 3 := Except.error.inj h
  exact absurd this (by decide)

/-- C3 (amended): during teardown of an applied rule set whose adds all
succeed, every rule's delete is invoked, in strict reverse order of
application, even when deletes fail; the call surfaces a single error after
the full reverse pass — the most recently raised one, i.e. the delete
failure of the earliest-applied failing rule, each later failure replacing
the previous — rather than an aggregate with the first error reported. -/
theorem apply_rules_teardown_reverse (fails : IptEv → Bool) (ks : List Nat) :
    ∀ t, (∀ k ∈ ks, fails (IptEv.add k) = false) →
      apply_rules fails ks noop_body t
        = (t ++ ks.map IptEv.add ++ (ks.reverse.map IptEv.del),
           surviving_del_error fails ks) := by
  induction ks with
  | nil =>
    intro t _
    simp [apply_rules, noop_body, surviving_del_error]
  | cons k ks ih =>
    intro t hadd
    have hk : fails (IptEv.add k) = false := hadd k (List.mem_cons_self k ks)
    have hrest : ∀ j ∈ ks, fails (IptEv.add j) = false :=
      fun j hj => hadd j (List.mem_cons_of_mem k hj)
    simp only [apply_rules, call_iptables, hk, Bool.false_eq_true, if_false]
    rw [ih (t ++ [IptEv.add k]) hrest]
    cases hdk : fails (IptEv.del k) <;>
      simp [surviving_del_error, hdk, List.append_assoc]

/-- C3 witness: the amended property at the masquerade rule set with rule 3's
delete failing. -/
theorem apply_rules_teardown_reverse_witness :
    (∀ k ∈ masquerade_rules, (fun e => e == IptEv.del 3) (IptEv.add k) = false)
  ∧ apply_rules (fun e => e == IptEv.del 3) masquerade_rules noop_body []
      = ([] ++ masquerade_rules.map IptEv.add ++ (masquerade_rules.reverse.map IptEv.del),
         surviving_del_error (fun e => e == IptEv.del 3) masquerade_rules) :=
  ⟨by decide,
   apply_rules_teardown_reverse (fun e => e == IptEv.del 3) masquerade_rules [] (by decide)⟩

/-- C6: entering the `setup_iface` scope when the address is already present
on the interface does not raise (the `EEXIST` error is caught and treated as
success), the interface is still brought up, the address list is unchanged,
and on scope exit the pre-existing address is left intact (no delete is
performed); when the address was not already present, exactly that one
address addition is reversed on exit — the address list returns to its
original value — and the interface is not brought back down. -/
theorem setup_iface_idempotent (st : NetState) (a : String) (plen idx : Nat) :
    ((idx, a, plen) ∈ st.addrs →
      setup_iface_enter a plen idx st = .ok (ipr_link_up st idx, true)
      ∧ idx ∈ (ipr_link_up st idx).up
      ∧ (ipr_link_up st idx).addrs = st.addrs
      ∧ setup_iface_exit a plen idx true (ipr_link_up st idx)
          = .ok (ipr_link_up st idx))
  ∧ ((idx, a, plen) ∉ st.addrs →
      setup_iface_enter a plen idx st
        = .ok (ipr_link_up { st with addrs := st.addrs ++ [(idx, a, plen)] } idx, false)
      ∧ idx ∈ (ipr_link_up { st with addrs := st.addrs ++ [(idx, a, plen)] } idx).up
      ∧ setup_iface_exit a plen idx false
          (ipr_link_up { st with addrs := st.addrs ++ [(idx, a, plen)] } idx)
          = .ok { addrs := st.addrs, up := (ipr_link_up st idx).up }) := by
  constructor
  · intro hmem
    refine ⟨?_, ?_, rfl, rfl⟩
    · simp [setup_iface_enter, ipr_addr_add, hmem]
    · simp only [ipr_link_up]
      by_cases h : idx ∈ st.up <;> simp [h]
  · intro hmem
    refine ⟨?_, ?_, ?_⟩
    · simp [setup_iface_enter, ipr_addr_add, hmem, ipr_link_up]
    · simp only [ipr_link_up]
      by_cases h : idx ∈ st.up <;> simp [h]
    · have hmem2 : (idx, a, plen) ∈
          (ipr_link_up { st with addrs := st.addrs ++ [(idx, a, plen)] } idx).addrs := by
        simp [ipr_link_up]
      simp only [setup_iface_exit, Bool.false_eq_true, if_false, ipr_addr_del, hmem2, if_pos]
      rw [show (ipr_link_up { st with addrs := st.addrs ++ [(idx, a, plen)] } idx).addrs
            = st.addrs ++ [(idx, a, plen)] from rfl,
          List.erase_append_right _ hmem, List.erase_cons_head]
      simp [ipr_link_up]

/-- C6 witness: the property applied at interface index 5 with address
`10.94.0.1/16` — once on a host that already has the address (the first
conjunct of the theorem) and once on a host that does not (the second). -/
theorem setup_iface_idempotent_witness :
    (setup_iface_enter "10.94.0.1" 16 5 ⟨[(5, "10.94.0.1", 16)], []⟩
        = .ok (ipr_link_up ⟨[(5, "10.94.0.1", 16)], []⟩ 5, true)
      ∧ 5 ∈ (ipr_link_up ⟨[(5, "10.94.0.1", 16)], []⟩ 5).up
      ∧ (ipr_link_up ⟨[(5, "10.94.0.1", 16)], []⟩ 5).addrs = [(5, "10.94.0.1", 16)]
      ∧ setup_iface_exit "10.94.0.1" 16 5 true (ipr_link_up ⟨[(5, "10.94.0.1", 16)], []⟩ 5)
          = .ok (ipr_link_up ⟨[(5, "10.94.0.1", 16)], []⟩ 5))
  ∧ (setup_iface_enter "10.94.0.1" 16 5 ⟨[], []⟩
        = .ok (ipr_link_up ⟨[] ++ [(5, "10.94.0.1", 16)], []⟩ 5, false)
      ∧ 5 ∈ (ipr_link_up ⟨[] ++ [(5, "10.94.0.1", 16)], []⟩ 5).up
      ∧ setup_iface_exit "10.94.0.1" 16 5 false (ipr_link_up ⟨[] ++ [(5, "10.94.0.1", 16)], []⟩ 5)
          = .ok ⟨[], (ipr_link_up ⟨[], []⟩ 5).up⟩) :=
  ⟨(setup_iface_idempotent ⟨[(5, "10.94.0.1", 16)], []⟩ "10.94.0.1" 16 5).1 (by decide),
   (setup_iface_idempotent ⟨[], []⟩ "10.94.0.1" 16 5).2 (by decide)⟩

/-- A single supervisor operation cannot move the process handle out of the
exited state or replace it: once `poll` has reported an exit status, the
handle keeps reporting exactly that status. -/
theorem dnsmasq_step_preserves_exited (st : DState) (c : Int) (op : DOp) (st2 : DState)
    (h : st.process = some (ProcStatus.exited c))
    (hs : dnsmasq_step st op = .ok st2) :
    st2.process = some (ProcStatus.exited c) := by
  cases op with
  | stop =>
    simp only [dnsmasq_step, dnsmasq_stop, h] at hs
    cases hs
    exact h
  | readLogs =>
    cases hl : st.logs with
    | none => simp [dnsmasq_step, dnsmasq_read_logs, hl] at hs
    | some x =>
      simp only [dnsmasq_step, dnsmasq_read_logs, hl] at hs
      cases hs
      exact h
  | pollOp =>
    simp only [dnsmasq_step] at hs
    cases hs
    exact h
  | childExits c2 =>
    simp only [dnsmasq_step, h] at hs
    cases hs
    exact h

/-- Exited-state preservation extends to arbitrary operation sequences. -/
theorem dnsmasq_exec_preserves_exited (ops : List DOp) :
    ∀ st st2 c, st.process = some (ProcStatus.exited c) →
      dnsmasq_exec ops st = .ok st2 → st2.process = some (ProcStatus.exited c) := by
  induction ops with
  | nil =>
    intro st st2 c h hs
    simp only [dnsmasq_exec] at hs
    cases hs
    exact h
  | cons op ops ih =>
    intro st st2 c h hs
    simp only [dnsmasq_exec] at hs
    cases hstep : dnsmasq_step st op with
    | error e => rw [hstep] at hs; cases hs
    | ok st1 =>
      rw [hstep] at hs
      exact ih st1 st2 c (dnsmasq_step_preserves_exited st c op st1 h hstep) hs

/-- C8: the supervisor's liveness check reports running exactly while the
handle says the child has not exited; and once the child has exited with
some status, any sequence of supervisor operations (stop, log reads, polls,
further child-exit events) that completes without raising leaves the handle
reporting exactly that same exit status — the liveness check never reports
running again and the child is never relaunched. -/
theorem dnsmasq_state_machine (st : DState) :
    (dnsmasq_running st = true ↔ st.process = some ProcStatus.running)
  ∧ ∀ c ops st2, st.process = some (ProcStatus.exited c) →
      dnsmasq_exec ops st = .ok st2 →
      st2.process = some (ProcStatus.exited c) ∧ dnsmasq_running st2 = false := by
  constructor
  · cases hp : st.process with
    | none => simp [dnsmasq_running, hp]
    | some p => cases p <;> simp [dnsmasq_running, hp, proc_poll]
  · intro c ops st2 h hs
    have h2 := dnsmasq_exec_preserves_exited ops st st2 c h hs
    exact ⟨h2, by simp [dnsmasq_running, h2, proc_poll]⟩

/-- C8 witness: a supervisor whose child has exited with status 0, driven
through a stop request, a log read, a poll and a spurious child-exit event:
the handle still reports exit status 0 and liveness reports stopped. -/
theorem dnsmasq_state_machine_witness :
    (⟨some (ProcStatus.exited 0), some 1, some 1⟩ : DState).process
        = some (ProcStatus.exited 0)
  ∧ dnsmasq_running ⟨some (ProcStatus.exited 0), some 1, some 1⟩ = false :=
  (dnsmasq_state_machine ⟨some (ProcStatus.exited 0), some 1, some 1⟩).2 0
    [DOp.stop, DOp.readLogs, DOp.pollOp, DOp.childExits 3]
    ⟨some (ProcStatus.exited 0), some 1, some 1⟩ rfl rfl

/-- C1: on the normal, cooperative-stop and interrupt exit paths, every
entered scope is released in exactly the reverse of the order of entry,
including the interface address delete; but on the exit path where an
exception raised inside the session body propagates, the `setup_iface`
cleanup — whose `yield` is not wrapped in `try/finally` — is skipped: the
address added at entry is never deleted, even though every other scope
(dnsmasq stop/close/cleanup, preseed exit, the three NAT rule deletes, the
unpack cleanup) is still released in reverse order. -/
theorem pxe_run_teardown_paths :
    pxe_run ⟨some "preseed.cfg", "eth1", "eth1"⟩ ExitMode.normal
      = ([Ev.unpackEnter, Ev.addrAdd, Ev.linkUp,
          Ev.natAdd 1 "eth1", Ev.natAdd 2 "eth1", Ev.natAdd 3 "eth1",
          Ev.preseedEnter, Ev.dnsmasqLaunch true, Ev.drainLogs, Ev.drainLogs,
          Ev.logsClose, Ev.workdirCleanup, Ev.preseedExit,
          Ev.natDel 3 "eth1", Ev.natDel 2 "eth1", Ev.natDel 1 "eth1",
          Ev.addrDel, Ev.unpackExit], false)
  ∧ Ev.addrDel ∈ (pxe_run ⟨some "preseed.cfg", "eth1", "eth1"⟩ ExitMode.stopFlag).1
  ∧ Ev.addrDel ∈ (pxe_run ⟨some "preseed.cfg", "eth1", "eth1"⟩ ExitMode.interrupt).1
  ∧ pxe_run ⟨some "preseed.cfg", "eth1", "eth1"⟩ ExitMode.bodyError
      = ([Ev.unpackEnter, Ev.addrAdd, Ev.linkUp,
          Ev.natAdd 1 "eth1", Ev.natAdd 2 "eth1", Ev.natAdd 3 "eth1",
          Ev.preseedEnter, Ev.dnsmasqLaunch true, Ev.drainLogs,
          Ev.dnsmasqTerminate, Ev.logsClose, Ev.workdirCleanup, Ev.preseedExit,
          Ev.natDel 3 "eth1", Ev.natDel 2 "eth1", Ev.natDel 1 "eth1",
          Ev.unpackExit], true)
  ∧ Ev.addrAdd ∈ (pxe_run ⟨some "preseed.cfg", "eth1", "eth1"⟩ ExitMode.bodyError).1
  ∧ Ev.addrDel ∉ (pxe_run ⟨some "preseed.cfg", "eth1", "eth1"⟩ ExitMode.bodyError).1 := by
  refine ⟨rfl, by decide, by decide, rfl, by decide, by decide⟩

/-- C7 counterexample: a session configured with no auxiliary (preseed) file
path and with uplink interface `eth1` while the host's default route is via
`wlan0`: the auxiliary file server scope is entered anyway, and the NAT
rules are installed on `wlan0` — not on the configured uplink `eth1`. -/
theorem run_unconditional_scopes_counterexample :
    Ev.preseedEnter ∈ (pxe_run ⟨none, "eth1", "wlan0"⟩ ExitMode.normal).1
  ∧ Ev.natAdd 1 "wlan0" ∈ (pxe_run ⟨none, "eth1", "wlan0"⟩ ExitMode.normal).1
  ∧ Ev.natAdd 1 "eth1" ∉ (pxe_run ⟨none, "eth1", "wlan0"⟩ ExitMode.normal).1
  ∧ Ev.natAdd 2 "eth1" ∉ (pxe_run ⟨none, "eth1", "wlan0"⟩ ExitMode.normal).1
  ∧ Ev.natAdd 3 "eth1" ∉ (pxe_run ⟨none, "eth1", "wlan0"⟩ ExitMode.normal).1 := by
  refine ⟨by decide, by decide, by decide, by decide, by decide⟩

/-- C7 (amended): on every exit path the coordinator enters the masquerade
scope AND the auxiliary file server scope unconditionally — the auxiliary
scope even when no configuration file path is set, and the NAT rules always
on the host's default-route interface; the configured uplink field plays no
role in the run at all (replacing it changes nothing); only the extra
conditional boot directive passed to the process supervisor depends on
whether the auxiliary file path is configured. -/
theorem run_scope_entry_spec (cfg : PxeConfig) (mode : ExitMode) (x : String) :
    Ev.preseedEnter ∈ (pxe_run cfg mode).1
  ∧ Ev.natAdd 1 cfg.default_route_iface ∈ (pxe_run cfg mode).1
  ∧ Ev.natAdd 2 cfg.default_route_iface ∈ (pxe_run cfg mode).1
  ∧ Ev.natAdd 3 cfg.default_route_iface ∈ (pxe_run cfg mode).1
  ∧ Ev.dnsmasqLaunch cfg.preseed_file.isSome ∈ (pxe_run cfg mode).1
  ∧ pxe_run { cfg with masquerade_iface := x } mode = pxe_run cfg mode := by
  obtain ⟨pf, mi, dri⟩ := cfg
  cases mode <;>
    simp [pxe_run, masqueradeCM, withClassCM, withGenNoFinallyCM, dnsmasqCM, loop_body]
